import Mathlib

/-!
Verification of the playback orchestration core of a chat-platform music
module (`src/modules/music/cog.py`).  The per-guild player (`GuildPlayer`)
owns a FIFO queue of tracks, an optional voice connection, a volume with a
retained "last non-zero" value, a cancellation event, and a background
player loop.  Commands (`add`, `skip`, `shuffle`, `remove`,
`set_volume_percent`, `mute`, `unmute`) mutate this state; the player loop
drains the queue.  Python floats are embedded as exact rationals, Python
ints as `Int`/`Nat`, `asyncio.Event` as `Bool`, `Optional` values as
`Option`.
-/

namespace PyDiscord

/-- The `Track` dataclass from the source: title, direct stream URL, share URL,
duration in seconds, requester. -/
structure Track where
  title : String
  url : String
  web_url : String
  duration : ℚ
  requested_by : String
deriving DecidableEq, Repr

/-- The observable part of a `discord.VoiceClient` the cog consults:
whether it is connected, whether a stream is playing / paused, and how many
members besides the bot occupy its channel. -/
structure Voice where
  connected : Bool
  playing : Bool
  paused : Bool
  othersInChannel : Nat
deriving DecidableEq, Repr

/-- State of `GuildPlayer`: queue, current track, voice handle, play-task
handle (`some d` = a task exists with done-flag `d`), the `_stop_event`
cancellation flag, `_started_at`, volume, the attached
`PCMVolumeTransformer`'s volume (`_pcm`), `_last_nonzero_volume`, and
whether an announce channel is set. -/
structure GuildPlayer where
  queue : List Track
  current : Option Track
  voice : Option Voice
  playTask : Option Bool
  stopEvent : Bool
  startedAt : Option ℚ
  volume : ℚ
  pcm : Option ℚ
  lastNonzeroVolume : ℚ
  announce : Bool
deriving DecidableEq, Repr

/-- Model of `GuildPlayer.others_in_channel_count`: members in the current voice
channel excluding the bot itself; `0` when there is no voice handle. -/
def othersInChannelCount (p : GuildPlayer) : Nat :=
  match p.voice with
  | none => 0
  | some v => v.othersInChannel

/-- Model of `GuildPlayer.channel_empty_excluding_self`. -/
def channelEmptyExcludingSelf (p : GuildPlayer) : Bool :=
  othersInChannelCount p == 0

/-- Truth of `self.voice and self.voice.is_connected()`. -/
def voiceConnected (p : GuildPlayer) : Bool :=
  match p.voice with
  | none => false
  | some v => v.connected

/-- Truth of `self.voice and self.voice.is_playing()`. -/
def voiceIsPlaying (p : GuildPlayer) : Bool :=
  match p.voice with
  | none => false
  | some v => v.playing

/-- The source's `clamp(x, lo, hi)` specialised to the integer arguments
`set_volume_percent` uses (`int(clamp(percent, 0, 200))`). -/
def clamp (x lo hi : ℤ) : ℤ :=
  if x < lo then lo else if x > hi then hi else x

/-- Model of `GuildPlayer.add`: append the track to the queue; if no play task
exists or the existing one is done, clear `_stop_event` and start a new
player loop task (modelled as installing a not-done task handle). -/
def GuildPlayer.add (p : GuildPlayer) (t : Track) : GuildPlayer :=
  let p1 := { p with queue := p.queue ++ [t] }
  if p1.playTask = none ∨ p1.playTask = some true then
    { p1 with stopEvent := false, playTask := some false }
  else p1

/-- Model of `GuildPlayer.skip`: if a stream is attached and playing, stop it
(`self.voice.stop()`); in every case set `_stop_event`. -/
def GuildPlayer.skip (p : GuildPlayer) : GuildPlayer :=
  let p1 :=
    match p.voice with
    | some v => if v.playing then { p with voice := some { v with playing := false } } else p
    | none => p
  { p1 with stopEvent := true }

/-- Model of `GuildPlayer.clear_queue`. -/
def GuildPlayer.clear_queue (p : GuildPlayer) : GuildPlayer :=
  { p with queue := [] }

/-- Model of `GuildPlayer.set_volume_percent`: clamp to `[0,200]`, store `pct/100`
as `volume`, retain it as `_last_nonzero_volume` when positive, propagate
to the attached transformer if one exists, and return the clamped
percent. -/
def GuildPlayer.set_volume_percent (p : GuildPlayer) (percent : ℤ) : ℤ × GuildPlayer :=
  let pct := clamp percent 0 200
  let p1 := { p with volume := (pct : ℚ) / 100 }
  let p2 := if 0 < p1.volume then { p1 with lastNonzeroVolume := p1.volume } else p1
  let p3 := if p2.pcm.isSome then { p2 with pcm := some p2.volume } else p2
  (pct, p3)

/-- Model of `GuildPlayer.mute`: record the volume as "last non-zero" when it is
positive, then set the volume percent to `0`. -/
def GuildPlayer.mute (p : GuildPlayer) : GuildPlayer :=
  let p1 := if 0 < p.volume then { p with lastNonzeroVolume := p.volume } else p
  (p1.set_volume_percent 0).2

/-- Model of `GuildPlayer.unmute` over exact rationals: restore
`_last_nonzero_volume` (falling back to `1.0`), converting back to an
integer percent with Python `int()` truncation (the target is positive,
so truncation is `Int.floor`).  The program computes `target * 100` in
IEEE double arithmetic, where the product can round to just below the
integer and truncate one percent lower than this exact-rational floor
does; `roundUlp` below models that double rounding at the concrete
failing input. -/
def GuildPlayer.unmute (p : GuildPlayer) : ℤ × GuildPlayer :=
  let target : ℚ := if 0 < p.lastNonzeroVolume then p.lastNonzeroVolume else 1
  p.set_volume_percent ⌊target * 100⌋

/-- Model of `GuildPlayer.pause`: pause iff a stream is attached and playing;
report whether the action took effect. -/
def GuildPlayer.pause (p : GuildPlayer) : Bool × GuildPlayer :=
  match p.voice with
  | some v =>
    if v.playing then (true, { p with voice := some { v with playing := false, paused := true } })
    else (false, p)
  | none => (false, p)

/-- Model of `GuildPlayer.resume`: resume iff a stream is attached and paused;
report whether the action took effect. -/
def GuildPlayer.resume (p : GuildPlayer) : Bool × GuildPlayer :=
  match p.voice with
  | some v =>
    if v.paused then (true, { p with voice := some { v with playing := true, paused := false } })
    else (false, p)
  | none => (false, p)

/-- Result of the `/remove` command: the removed track (`none` when the
index was rejected as out of range) and the player afterwards. -/
structure RemoveOut where
  removed : Option Track
  player : GuildPlayer
deriving DecidableEq, Repr

/-- Model of `Music.remove`: reject `index < 1` or `index > len(queue)` leaving the
player untouched; otherwise pop the 1-based `index`-th queue entry. -/
def removeCmd (idx : ℤ) (p : GuildPlayer) : RemoveOut :=
  if idx < 1 ∨ (p.queue.length : ℤ) < idx then ⟨none, p⟩
  else
    match p.queue[(idx - 1).toNat]? with
    | some t => ⟨some t, { p with queue := p.queue.eraseIdx (idx - 1).toNat }⟩
    | none => ⟨none, p⟩

/-- A list-index swap, `x[i], x[j] = x[j], x[i]`; identity when either
index is out of range. -/
def listSwap (l : List Track) (i j : Nat) : List Track :=
  match l[i]?, l[j]? with
  | some a, some b => (l.set i b).set j a
  | _, _ => l

/-- One Fisher–Yates pass, `for i in reversed(range(1, len(x)))`: swap
index `i` with the externally drawn index `rand i`, counting `i` down to
`1`.  `rand` stands for the library's random draws. -/
def fyPass (rand : Nat → Nat) : Nat → List Track → List Track
  | 0, l => l
  | i + 1, l => fyPass rand i (listSwap l (i + 1) (rand (i + 1)))

/-- Model of `random.shuffle` on a list, with the random choices supplied by
`rand`. -/
def shuffleList (rand : Nat → Nat) (l : List Track) : List Track :=
  fyPass rand (l.length - 1) l

/-- Model of `GuildPlayer.shuffle`: return unchanged when the queue is empty,
otherwise replace the queue with a shuffled copy. -/
def GuildPlayer.shuffle (p : GuildPlayer) (rand : Nat → Nat) : GuildPlayer :=
  if p.queue.isEmpty then p
  else { p with queue := shuffleList rand p.queue }

/-- External events one player-loop iteration observes: whether opening
the FFmpeg stream succeeds, the clock value recorded as `_started_at`, and
whether the transport reports the stream still playing once the
finished-or-cancelled race resolves. -/
structure LoopEnv where
  attachOk : Bool
  now : ℚ
  playingAfterRace : Bool
deriving Repr

/-- Outcome of one iteration of `_player_loop`'s `while` body: either the
`while` loop exits (by emptiness, occupancy, or disconnection) or it
continues with the updated state. -/
inductive IterStep
  | exit (p : GuildPlayer)
  | cont (p : GuildPlayer)
deriving DecidableEq, Repr

/-- Set the `playing` flag on an attached voice handle. -/
def setPlaying : Option Voice → Bool → Option Voice
  | some v, b => some { v with playing := b }
  | none, _ => none

/-- Mark a voice handle disconnected (`voice.disconnect()`). -/
def setDisconnected : Option Voice → Option Voice
  | some v => some { v with connected := false }
  | none => none

/-- One iteration of the `while self.queue:` body of
`GuildPlayer._player_loop`: exit when the queue is empty; exit before
popping when nobody else is in the channel; pop the head into `current`
and reset `_started_at`; exit when the voice handle is missing or
disconnected; on attach failure clear `current` and continue; otherwise
attach the transformer at the current volume, start playing, record
`_started_at`, race finished-vs-cancelled (the announce step has no player
state effect and failures are swallowed), then clear `_stop_event` and the
transformer reference and continue. -/
def playerLoopIter (env : LoopEnv) (p : GuildPlayer) : IterStep :=
  match p.queue with
  | [] => .exit p
  | t :: rest =>
    if channelEmptyExcludingSelf p then .exit p
    else
      let p1 := { p with current := some t, queue := rest, startedAt := none }
      if ¬ voiceConnected p1 then .exit p1
      else if ¬ env.attachOk then .cont { p1 with current := none }
      else
        let p2 := { p1 with pcm := some p1.volume }
        let p3 := { p2 with voice := setPlaying p2.voice true, startedAt := some env.now }
        let p4 := { p3 with voice := setPlaying p3.voice env.playingAfterRace }
        .cont { p4 with stopEvent := false, pcm := none }

/-- The cleanup `_player_loop` runs after its `while` loop exits: if the
channel is empty (excluding the bot) and the voice handle is connected,
disconnect; then unconditionally clear `current`, `_started_at`, and the
transformer reference. -/
def playerLoopCleanup (p : GuildPlayer) : GuildPlayer :=
  let p1 :=
    if channelEmptyExcludingSelf p && voiceConnected p then { p with voice := setDisconnected p.voice }
    else p
  { p1 with current := none, startedAt := none, pcm := none }

/-- Model of `GuildPlayer._player_loop` as a whole, fuelled: iterate until the
`while` loop exits, then run the cleanup; `none` when fuel runs out. -/
def runPlayerLoop : Nat → (Nat → LoopEnv) → GuildPlayer → Option GuildPlayer
  | 0, _, _ => none
  | n + 1, envs, p =>
    match playerLoopIter (envs 0) p with
    | .exit q => some (playerLoopCleanup q)
    | .cont q => runPlayerLoop n (fun i => envs (i + 1)) q

/-- Ghost view of the play-task lifecycle behind `GuildPlayer.add`:
`tasks` records every loop task ever spawned for the session (`true` =
still running), `handle` is `self._play_task`, the index of the most
recently spawned task. -/
structure TaskSys where
  tasks : List Bool
  handle : Option Nat
deriving DecidableEq, Repr

/-- Truth of `not self._play_task or self._play_task.done()`. -/
def TaskSys.handleDone (s : TaskSys) : Bool :=
  match s.handle with
  | none => true
  | some k => !(s.tasks.getD k false)

/-- Events that touch the play-task state: an `add` call (spawn a new loop
task iff the handle is absent or done) and some loop task `k` running to
completion. -/
inductive SysEvent
  | enqueue
  | taskFinish (k : Nat)
deriving DecidableEq, Repr

/-- One step of the play-task lifecycle. -/
def sysStep (s : TaskSys) : SysEvent → TaskSys
  | .enqueue =>
    if s.handleDone then { tasks := s.tasks ++ [true], handle := some s.tasks.length }
    else s
  | .taskFinish k => { s with tasks := s.tasks.set k false }

/-- A fresh session: no task ever spawned, no handle. -/
def initTaskSys : TaskSys := { tasks := [], handle := none }

/-- Run an interleaving of enqueue / task-completion events from a fresh
session. -/
def sysRun (es : List SysEvent) : TaskSys :=
  es.foldl sysStep initTaskSys

/-- Every still-running task is the one the handle points at. -/
def TaskSys.aliveInv (s : TaskSys) : Prop :=
  ∀ i, s.tasks.getD i false = true → s.handle = some i

/-- Concrete sample track `X`. -/
def sampleTrackX : Track := ⟨"X", "ux", "wx", 180, "alice"⟩

/-- Concrete sample track `Y`. -/
def sampleTrackY : Track := ⟨"Y", "uy", "wy", 200, "bob"⟩

/-- Concrete sample track `Z`. -/
def sampleTrackZ : Track := ⟨"Z", "uz", "wz", 30, "carol"⟩

/-- Concrete sample player: three queued tracks, a connected voice handle
with two other channel occupants, nothing playing. -/
def samplePlayer : GuildPlayer :=
  { queue := [sampleTrackX, sampleTrackY, sampleTrackZ]
    current := none
    voice := some { connected := true, playing := false, paused := false, othersInChannel := 2 }
    playTask := none
    stopEvent := false
    startedAt := none
    volume := 1
    pcm := none
    lastNonzeroVolume := 1
    announce := false }

/-- The sample player with an empty queue. -/
def emptyQueuePlayer : GuildPlayer :=
  { samplePlayer with queue := [] }

/-- A loop environment in which the stream attach succeeds. -/
def sampleEnv : LoopEnv := { attachOk := true, now := 5, playingAfterRace := false }

/-- A loop environment in which the stream attach fails. -/
def sampleFailEnv : LoopEnv := { attachOk := false, now := 5, playingAfterRace := false }

/-- Round a positive rational to the nearest multiple of the unit `u`, as
IEEE-754 round-to-nearest does within a binade whose unit in the last
place is `u` (no ties arise in the computations below, so the tie rule is
irrelevant). -/
def roundUlp (u q : ℚ) : ℚ := (round (q / u) : ℤ) * u

/-- The IEEE double `57/100.0`, the volume the program stores after
`set_volume_percent(57)`: the quotient `0.57` lies in the binade
`[1/2, 1)`, whose unit in the last place is `2⁻⁵³`, and IEEE division is
correctly rounded. -/
def pyDouble57over100 : ℚ := roundUlp (1 / 2 ^ 53) (57 / 100)

/-- The percent `int(target * 100)` computes in IEEE double arithmetic
when the stored volume is the double `57/100.0`: the product lies in the
binade `[32, 64)` (unit in the last place `2⁻⁴⁷`), IEEE multiplication is
correctly rounded, and Python `int()` truncates toward zero, which on
this positive value is the floor. -/
def unmutePercentAtDouble57 : ℤ := ⌊roundUlp (1 / 2 ^ 47) (pyDouble57over100 * 100)⌋

/- ------------------------------------------------------------------ -/
/- Helper lemmas                                                      -/
/- ------------------------------------------------------------------ -/

theorem add_queue (p : GuildPlayer) (t : Track) : (p.add t).queue = p.queue ++ [t] := by
  simp only [GuildPlayer.add]
  split <;> rfl

theorem svp_eval (p : GuildPlayer) (percent : ℤ) :
    p.set_volume_percent percent =
      (clamp percent 0 200,
       { p with
          volume := ((clamp percent 0 200 : ℚ) / 100)
          lastNonzeroVolume := (if 0 < (clamp percent 0 200 : ℚ) / 100
            then (clamp percent 0 200 : ℚ) / 100 else p.lastNonzeroVolume)
          pcm := (if p.pcm.isSome then some ((clamp percent 0 200 : ℚ) / 100)
            else p.pcm) }) := by
  simp only [GuildPlayer.set_volume_percent]
  by_cases h1 : 0 < (clamp percent 0 200 : ℚ) / 100 <;>
    by_cases h2 : p.pcm.isSome = true <;>
      simp [h1, h2]

theorem mute_eval (p : GuildPlayer) (h : 0 < p.volume) :
    p.mute = { p with
                volume := 0
                lastNonzeroVolume := p.volume
                pcm := (if p.pcm.isSome then some 0 else p.pcm) } := by
  simp only [GuildPlayer.mute, if_pos h, svp_eval]
  norm_num [clamp]

theorem iter_queue_empty (env : LoopEnv) (p : GuildPlayer) (h : p.queue = []) :
    playerLoopIter env p = .exit p := by
  unfold playerLoopIter
  rw [h]

theorem iter_occupancy_exit (env : LoopEnv) (p : GuildPlayer) (t : Track) (rest : List Track)
    (hq : p.queue = t :: rest) (h : channelEmptyExcludingSelf p = true) :
    playerLoopIter env p = .exit p := by
  unfold playerLoopIter
  rw [hq]
  simp [h]

theorem iter_not_connected (env : LoopEnv) (p : GuildPlayer) (t : Track) (rest : List Track)
    (hq : p.queue = t :: rest) (h1 : channelEmptyExcludingSelf p = false)
    (h2 : voiceConnected p = false) :
    playerLoopIter env p = .exit { p with current := some t, queue := rest, startedAt := none } := by
  unfold playerLoopIter
  rw [hq]
  simp [h1, voiceConnected] at h2 ⊢
  cases hv : p.voice with
  | none => simp [hv]
  | some v => simp [hv] at h2 ⊢; simp [h2]

theorem iter_attach_fail (env : LoopEnv) (p : GuildPlayer) (t : Track) (rest : List Track)
    (hq : p.queue = t :: rest) (h1 : channelEmptyExcludingSelf p = false)
    (h2 : voiceConnected p = true) (h3 : env.attachOk = false) :
    playerLoopIter env p = .cont { p with current := none, queue := rest, startedAt := none } := by
  unfold playerLoopIter
  rw [hq]
  simp only [voiceConnected] at h2
  simp [h1, voiceConnected, h2, h3]

theorem iter_attach_ok (env : LoopEnv) (p : GuildPlayer) (t : Track) (rest : List Track)
    (hq : p.queue = t :: rest) (h1 : channelEmptyExcludingSelf p = false)
    (h2 : voiceConnected p = true) (h3 : env.attachOk = true) :
    playerLoopIter env p = .cont { p with
      current := some t
      queue := rest
      startedAt := some env.now
      voice := setPlaying p.voice env.playingAfterRace
      stopEvent := false
      pcm := none } := by
  unfold playerLoopIter
  rw [hq]
  simp only [voiceConnected] at h2
  cases hv : p.voice with
  | none => rw [hv] at h2; cases h2
  | some v =>
    rw [hv] at h2
    simp only at h2
    simp [h1, voiceConnected, hv, h2, h3, setPlaying]

theorem cleanup_connected (p : GuildPlayer) :
    voiceConnected (playerLoopCleanup p) =
      (voiceConnected p && !(channelEmptyExcludingSelf p)) := by
  simp only [playerLoopCleanup]
  cases hv : p.voice with
  | none => cases hB : channelEmptyExcludingSelf p <;> simp_all [voiceConnected, setDisconnected]
  | some v =>
    cases hc : v.connected <;> cases hB : channelEmptyExcludingSelf p <;>
      simp_all [voiceConnected, setDisconnected]

theorem runPlayerLoop_exit_form :
    ∀ (fuel : Nat) (envs : Nat → LoopEnv) (p q : GuildPlayer),
      runPlayerLoop fuel envs p = some q → ∃ e, q = playerLoopCleanup e := by
  intro fuel
  induction fuel with
  | zero => intro envs p q h; simp [runPlayerLoop] at h
  | succ n ih =>
    intro envs p q h
    rw [runPlayerLoop] at h
    cases hi : playerLoopIter (envs 0) p with
    | exit e => rw [hi] at h; exact ⟨e, (Option.some.inj h).symm⟩
    | cont r => rw [hi] at h; exact ih _ _ _ h

theorem count_true_eq_zero (l : List Bool) (h : ∀ i, l.getD i false ≠ true) :
    l.count true = 0 := by
  rw [List.count_eq_zero]
  intro hmem
  obtain ⟨i, hi, hget⟩ := List.mem_iff_getElem.mp hmem
  exact h i (by rw [List.getD_eq_getElem?_getD, List.getElem?_eq_getElem hi,
    Option.getD_some, hget])

theorem count_true_le_one (l : List Bool) (k : Nat)
    (h : ∀ i, l.getD i false = true → i = k) : l.count true ≤ 1 := by
  induction l generalizing k with
  | nil => simp
  | cons b tl ih =>
    cases hb : b with
    | true =>
      have hk : (0 : Nat) = k := h 0 (by simp [hb])
      have htl : ∀ i, tl.getD i false ≠ true := by
        intro i hi
        have := h (i + 1) (by simpa using hi)
        omega
      rw [List.count_cons]
      have h0 : tl.count true = 0 := count_true_eq_zero tl htl
      simp [hb, h0]
    | false =>
      rw [List.count_cons]
      have htl : tl.count true ≤ 1 := by
        refine ih (k - 1) (fun i hi => ?_)
        have := h (i + 1) (by simpa using hi)
        omega
      simp [hb]
      omega

theorem aliveInv_count (s : TaskSys) (h : s.aliveInv) : s.tasks.count true ≤ 1 := by
  cases hh : s.handle with
  | none =>
    have hz : ∀ i, s.tasks.getD i false ≠ true := by
      intro i hi
      have := h i hi
      rw [hh] at this
      cases this
    rw [count_true_eq_zero s.tasks hz]
    omega
  | some k =>
    refine count_true_le_one s.tasks k (fun i hi => ?_)
    have := h i hi
    rw [hh] at this
    exact (Option.some.inj this).symm

theorem aliveInv_step (s : TaskSys) (e : SysEvent) (h : s.aliveInv) :
    (sysStep s e).aliveInv := by
  cases e with
  | enqueue =>
    by_cases hd : s.handleDone = true
    · simp only [sysStep, if_pos hd]
      intro i hi
      rcases lt_trichotomy i s.tasks.length with hlt | heq | hgt
      · exfalso
        have hgetD : s.tasks.getD i false = true := by
          rw [List.getD_eq_getElem?_getD] at hi ⊢
          rw [List.getElem?_append, if_pos hlt] at hi
          exact hi
        have hhi := h i hgetD
        simp only [TaskSys.handleDone, hhi] at hd
        rw [hgetD] at hd
        cases hd
      · simp [heq]
      · exfalso
        have hz : (s.tasks ++ [true]).getD i false = false := by
          rw [List.getD_eq_getElem?_getD, List.getElem?_append, if_neg (by omega)]
          rw [List.getElem?_eq_none (by simp; omega)]
          rfl
        rw [hz] at hi
        cases hi
    · simp only [sysStep, if_neg hd]
      exact h
  | taskFinish k =>
    intro i hi
    simp only [sysStep] at hi ⊢
    apply h i
    rw [List.getD_eq_getElem?_getD] at hi ⊢
    rw [List.getElem?_set] at hi
    by_cases hk : k = i
    · rw [if_pos hk] at hi
      split at hi <;> simp at hi
    · rw [if_neg hk] at hi
      exact hi

theorem aliveInv_foldl (es : List SysEvent) :
    ∀ s : TaskSys, s.aliveInv → (es.foldl sysStep s).aliveInv := by
  induction es with
  | nil => intro s hs; exact hs
  | cons e es ih => intro s hs; exact ih (sysStep s e) (aliveInv_step s e hs)

theorem aliveInv_run (es : List SysEvent) : (sysRun es).aliveInv := by
  refine aliveInv_foldl es initTaskSys (fun i hi => ?_)
  simp [initTaskSys] at hi

theorem count_set_add (l : List Track) (n : Nat) (h : n < l.length) (x c : Track) :
    (l.set n x).count c + (if l[n] = c then 1 else 0) =
      l.count c + (if x = c then 1 else 0) := by
  induction l generalizing n with
  | nil => simp at h
  | cons a tl ih =>
    cases n with
    | zero =>
      simp only [List.set_cons_zero, List.count_cons, List.getElem_cons_zero, beq_iff_eq]
      split_ifs <;> omega
    | succ n =>
      have hn : n < tl.length := by simpa using h
      simp only [List.set_cons_succ, List.count_cons, List.getElem_cons_succ, beq_iff_eq]
      have hrec := ih n hn
      split_ifs at hrec ⊢ <;> omega

theorem listSwap_perm (l : List Track) (i j : Nat) : (listSwap l i j).Perm l := by
  rcases hi : l[i]? with _ | a <;> rcases hj : l[j]? with _ | b <;>
    simp only [listSwap, hi, hj]
  · exact List.Perm.refl l
  · exact List.Perm.refl l
  · exact List.Perm.refl l
  · obtain ⟨hil, hia⟩ := List.getElem?_eq_some.mp hi
    obtain ⟨hjl, hjb⟩ := List.getElem?_eq_some.mp hj
    rw [List.perm_iff_count]
    intro c
    have hjl2 : j < (l.set i b).length := by simpa using hjl
    have e1 := count_set_add (l.set i b) j hjl2 a c
    have e2 := count_set_add l i hil b c
    have hsj : (l.set i b)[j] = b := by
      rw [List.getElem_set hjl2]
      split
      · rfl
      · exact hjb
    rw [hsj] at e1
    rw [hia] at e2
    split_ifs at e1 e2 <;> omega

theorem fyPass_perm (rand : Nat → Nat) (n : Nat) :
    ∀ l : List Track, (fyPass rand n l).Perm l := by
  induction n with
  | zero => intro l; exact List.Perm.refl l
  | succ n ih =>
    intro l
    exact (ih (listSwap l (n + 1) (rand (n + 1)))).trans
      (listSwap_perm l (n + 1) (rand (n + 1)))

/- ------------------------------------------------------------------ -/
/- Claim theorems                                                     -/
/- ------------------------------------------------------------------ -/

/-- Claim C2: each `Enqueue` appends its track to the tail of the queue,
so any sequence of `Enqueue` calls on one session with no concurrent
dequeuing leaves the queue holding the previous contents followed by the
enqueued tracks in FIFO insertion order. -/
theorem enqueue_fifo_order (p : GuildPlayer) (ts : List Track) :
    (ts.foldl GuildPlayer.add p).queue = p.queue ++ ts ∧
    ∀ t, (p.add t).queue = p.queue ++ [t] := by
  refine ⟨?_, fun t => add_queue p t⟩
  induction ts generalizing p with
  | nil => simp
  | cons t ts ih => simp [List.foldl_cons, ih, add_queue]

/-- Claim C3: `Remove(index)` with `index < 1` or `index > len(queue)`
fails with `OutOfRange` and leaves the player unchanged; with a valid
index it removes and returns exactly the 1-based `index`-th pending item,
leaving the others in order, and it never touches the current track. -/
theorem remove_out_of_range_or_pops (idx : ℤ) (p : GuildPlayer) :
    ((idx < 1 ∨ (p.queue.length : ℤ) < idx) → removeCmd idx p = ⟨none, p⟩) ∧
    (1 ≤ idx → idx ≤ (p.queue.length : ℤ) →
      ∃ t, p.queue[(idx - 1).toNat]? = some t ∧
        removeCmd idx p =
          ⟨some t, { p with queue := (p.queue.take (idx - 1).toNat ++
            p.queue.drop ((idx - 1).toNat + 1)) }⟩) ∧
    (removeCmd idx p).player.current = p.current := by
  refine ⟨?_, ?_, ?_⟩
  · intro h
    simp only [removeCmd]
    rw [if_pos h]
  · intro h1 h2
    have hnot : ¬ (idx < 1 ∨ (p.queue.length : ℤ) < idx) := by omega
    have hb : (idx - 1).toNat < p.queue.length := by omega
    have hget : p.queue[(idx - 1).toNat]? = some (p.queue[(idx - 1).toNat]) :=
      List.getElem?_eq_getElem hb
    refine ⟨_, hget, ?_⟩
    simp only [removeCmd]
    rw [if_neg hnot, hget, List.eraseIdx_eq_take_drop_succ]
  · simp only [removeCmd]
    split
    · rfl
    · split <;> rfl

/-- Witness for claim C3: `Remove(1)` on the 3-item sample queue
`[X,Y,Z]` returns `X` and leaves `[Y,Z]`; `Remove(0)` is rejected with
the player unchanged. -/
theorem remove_out_of_range_or_pops_witness :
    removeCmd 0 samplePlayer = ⟨none, samplePlayer⟩ ∧
    (∃ t, samplePlayer.queue[((1 : ℤ) - 1).toNat]? = some t ∧
      removeCmd 1 samplePlayer =
        ⟨some t, { samplePlayer with queue := (samplePlayer.queue.take ((1 : ℤ) - 1).toNat ++
          samplePlayer.queue.drop (((1 : ℤ) - 1).toNat + 1)) }⟩) :=
  ⟨(remove_out_of_range_or_pops 0 samplePlayer).1 (Or.inl (by decide)),
   (remove_out_of_range_or_pops 1 samplePlayer).2.1 (by decide) (by decide)⟩

/-- Claim C4: `SetVolumePercent(p)` returns `clamp(p,0,200)`, stores
`clamp(p,0,200)/100` as the volume, updates the retained last non-zero
volume exactly when the clamped value is positive, and propagates the new
volume to the attached stream if one exists. -/
theorem set_volume_percent_spec (p : GuildPlayer) (percent : ℤ) :
    (p.set_volume_percent percent).1 = clamp percent 0 200 ∧
    (p.set_volume_percent percent).2.volume = (clamp percent 0 200 : ℚ) / 100 ∧
    (0 < clamp percent 0 200 →
      (p.set_volume_percent percent).2.lastNonzeroVolume =
        (clamp percent 0 200 : ℚ) / 100) ∧
    (clamp percent 0 200 ≤ 0 →
      (p.set_volume_percent percent).2.lastNonzeroVolume = p.lastNonzeroVolume) ∧
    (p.pcm.isSome = true →
      (p.set_volume_percent percent).2.pcm = some ((clamp percent 0 200 : ℚ) / 100)) ∧
    (p.pcm = none → (p.set_volume_percent percent).2.pcm = none) := by
  have hiff : 0 < (clamp percent 0 200 : ℚ) / 100 ↔ 0 < clamp percent 0 200 := by
    rw [div_pos_iff_of_pos_right (by norm_num : (0:ℚ) < 100)]
    exact_mod_cast Iff.rfl
  rw [svp_eval]
  refine ⟨rfl, rfl, ?_, ?_, ?_, ?_⟩
  · intro h
    simp [hiff.mpr h]
  · intro h
    rw [if_neg (fun hc => absurd (hiff.mp hc) (by omega))]
  · intro h
    simp [h]
  · intro h
    simp [h]

/-- Witness for claim C4: `SetVolumePercent(250)` on the sample player
returns `200`, stores volume `2.0`, retains it as the last non-zero
volume, and leaves the absent stream untouched. -/
theorem set_volume_percent_spec_witness :
    (samplePlayer.set_volume_percent 250).1 = 200 ∧
    (samplePlayer.set_volume_percent 250).2.volume = 2 ∧
    (samplePlayer.set_volume_percent 250).2.lastNonzeroVolume = 2 ∧
    (samplePlayer.set_volume_percent 250).2.pcm = none := by
  have h := set_volume_percent_spec samplePlayer 250
  have hc : clamp 250 0 200 = 200 := by decide
  refine ⟨?_, ?_, ?_, h.2.2.2.2.2 (by decide)⟩
  · rw [h.1]; decide
  · rw [h.2.1, hc]; norm_num
  · rw [h.2.2.1 (by decide), hc]; norm_num

/-- The mute/unmute round-trip restores the volume exactly under exact
rational arithmetic, for every volume the program can store (an integer
percent in `[0,200]` divided by `100`).  This establishes the algorithm's
intent: the deviation observed in the running program comes solely from
IEEE double rounding inside `int(target * 100)`, not from the recorded
"last non-zero" bookkeeping. -/
theorem mute_unmute_roundtrip_exactRat (p : GuildPlayer) (k : ℕ)
    (hk : p.volume = (k : ℚ) / 100) (hkpos : 0 < k) (hkle : k ≤ 200) :
    ((p.mute).unmute).2.volume = p.volume := by
  have hvpos : 0 < p.volume := by
    rw [hk]
    exact div_pos (by exact_mod_cast hkpos) (by norm_num)
  have hck : clamp (k : ℤ) 0 200 = (k : ℤ) := by
    simp only [clamp]
    rw [if_neg (by omega), if_neg (by omega)]
  have hfloor : ⌊p.volume * 100⌋ = (k : ℤ) := by
    rw [hk, div_mul_cancel₀ _ (by norm_num : (100:ℚ) ≠ 0)]
    exact Int.floor_natCast k
  rw [mute_eval p hvpos]
  simp only [GuildPlayer.unmute, svp_eval, if_pos hvpos]
  rw [hfloor, hck, hk, Int.cast_natCast]

/-- Claim C5, evaluated at the failing input: when the stored volume is
the IEEE double `57/100.0` (reachable via `set_volume_percent 57`), the
percent `unmute` recomputes under double arithmetic is `56`, not `57` —
the product `target * 100` rounds to just below `57` and `int()`
truncates — so the restored volume is the double `56/100.0`, which is not
the pre-mute volume.  The exact round-trip the claim (and the spec)
promise therefore fails in the program, while the bookkeeping algorithm
itself is exact (see `mute_unmute_roundtrip_exactRat`): the truncation is
the slip. -/
theorem mute_unmute_float_truncates :
    unmutePercentAtDouble57 = 56 ∧
    roundUlp (1 / 2 ^ 53) ((unmutePercentAtDouble57 : ℚ) / 100) ≠ pyDouble57over100 := by
  have h1 : pyDouble57over100 = 5134103575202365 / 2 ^ 53 := by
    unfold pyDouble57over100 roundUlp
    rw [show round ((57 / 100 : ℚ) / (1 / 2 ^ 53)) = 5134103575202365 by
      rw [round_eq, Int.floor_eq_iff] ; norm_num]
    norm_num
  have h2 : unmutePercentAtDouble57 = 56 := by
    unfold unmutePercentAtDouble57
    rw [h1]
    unfold roundUlp
    rw [show round (((5134103575202365 / 2 ^ 53 : ℚ) * 100) / (1 / 2 ^ 47)) = 8022036836253695 by
      rw [round_eq, Int.floor_eq_iff] ; norm_num]
    rw [Int.floor_eq_iff] ; norm_num
  refine ⟨h2, ?_⟩
  rw [h2, h1]
  unfold roundUlp
  rw [show round ((((56 : ℤ) : ℚ) / 100) / (1 / 2 ^ 53)) = 5044031582654956 by
    rw [round_eq, Int.floor_eq_iff] ; norm_num]
  norm_num

/-- Claim C6: `Skip()` stops the attached stream when one is playing and
always raises the cancellation signal; with nothing playing it is a
harmless no-op signal raise; and when an iteration of the loop proceeds,
the track it processed has already been popped, so the loop moves on to
the next queued track (or exits when the queue is empty) without replaying
it. -/
theorem skip_stops_and_signals (p : GuildPlayer) (env : LoopEnv) :
    (p.skip).stopEvent = true ∧
    (∀ v, p.voice = some v → v.playing = true →
      p.skip = { p with voice := some { v with playing := false }, stopEvent := true }) ∧
    (voiceIsPlaying p = false → p.skip = { p with stopEvent := true }) ∧
    (∀ t rest q, p.queue = t :: rest → playerLoopIter env p = .cont q → q.queue = rest) ∧
    (p.queue = [] → playerLoopIter env p = .exit p) := by
  refine ⟨?_, ?_, ?_, ?_, fun h => iter_queue_empty env p h⟩
  · simp only [GuildPlayer.skip]
  · intro v hv hp
    simp only [GuildPlayer.skip, hv]
    simp [hp]
  · intro h
    cases hv : p.voice with
    | none => simp [GuildPlayer.skip, hv]
    | some v =>
      simp only [voiceIsPlaying, hv] at h
      simp only [GuildPlayer.skip, hv]
      rw [if_neg (by simp [h]), hv]
  · intro t rest q hq hiter
    cases h1 : channelEmptyExcludingSelf p with
    | true => rw [iter_occupancy_exit env p t rest hq h1] at hiter; cases hiter
    | false =>
      cases h2 : voiceConnected p with
      | false => rw [iter_not_connected env p t rest hq h1 h2] at hiter; cases hiter
      | true =>
        cases h3 : env.attachOk with
        | false =>
          rw [iter_attach_fail env p t rest hq h1 h2 h3] at hiter
          cases hiter
          rfl
        | true =>
          rw [iter_attach_ok env p t rest hq h1 h2 h3] at hiter
          cases hiter
          rfl

/-- Witness for claim C6: on the sample player `skip` raises the signal
and, with nothing playing, changes nothing else; the loop iteration on the
three-track queue with a failing attach continues with the remaining two
tracks, and on an empty queue it exits. -/
theorem skip_stops_and_signals_witness :
    samplePlayer.skip.stopEvent = true ∧
    samplePlayer.skip = { samplePlayer with stopEvent := true } ∧
    playerLoopIter sampleEnv emptyQueuePlayer = .exit emptyQueuePlayer ∧
    ({ samplePlayer with current := none, queue := [sampleTrackY, sampleTrackZ] } : GuildPlayer).queue = [sampleTrackY, sampleTrackZ] := by
  have h1 := skip_stops_and_signals samplePlayer sampleEnv
  have h2 := skip_stops_and_signals emptyQueuePlayer sampleEnv
  have h3 := skip_stops_and_signals samplePlayer sampleFailEnv
  refine ⟨h1.1, h1.2.2.1 (by decide), h2.2.2.2.2 rfl, ?_⟩
  exact h3.2.2.2.1 sampleTrackX [sampleTrackY, sampleTrackZ] _ rfl
    (iter_attach_fail sampleFailEnv samplePlayer sampleTrackX [sampleTrackY, sampleTrackZ]
      rfl (by decide) (by decide) rfl)

/-- Claim C7: when opening the audio stream for the popped track fails,
the loop clears `current` and continues with the next iteration: the
failing track is dropped from the queue, never retried, and the failure
never makes the loop exit. -/
theorem attach_failure_drops_track (p : GuildPlayer) (env : LoopEnv) (t : Track)
    (rest : List Track) (hq : p.queue = t :: rest)
    (hocc : channelEmptyExcludingSelf p = false)
    (hconn : voiceConnected p = true) (hfail : env.attachOk = false) :
    playerLoopIter env p = .cont { p with current := none, queue := rest, startedAt := none } :=
  iter_attach_fail env p t rest hq hocc hconn hfail

/-- Witness for claim C7: on the sample player, a failing attach for track
`X` yields a continuing iteration with `current` cleared and only `Y`, `Z`
left queued. -/
theorem attach_failure_drops_track_witness :
    playerLoopIter sampleFailEnv samplePlayer =
      .cont { samplePlayer with current := none, queue := [sampleTrackY, sampleTrackZ], startedAt := none } :=
  attach_failure_drops_track samplePlayer sampleFailEnv sampleTrackX
    [sampleTrackY, sampleTrackZ] rfl (by decide) (by decide) rfl

/-- Claim C8: the cancellation signal is level-triggered within a single
iteration: whatever its value beforehand, an iteration that reaches the
finished-or-cancelled race continues with the signal cleared, and starting
a new playback loop from `add` (when no loop task is alive) clears any
stale signal. -/
theorem cancellation_signal_reset (p : GuildPlayer) (env : LoopEnv) (t : Track)
    (rest : List Track) :
    (p.queue = t :: rest → channelEmptyExcludingSelf p = false →
      voiceConnected p = true → env.attachOk = true →
      ∃ q, playerLoopIter env p = .cont q ∧ q.stopEvent = false) ∧
    ((p.playTask = none ∨ p.playTask = some true) → (p.add t).stopEvent = false) := by
  constructor
  · intro hq h1 h2 h3
    exact ⟨_, iter_attach_ok env p t rest hq h1 h2 h3, rfl⟩
  · intro h
    simp only [GuildPlayer.add]
    rw [if_pos (by simpa using h)]

/-- Witness for claim C8: on the sample player with a stale raised signal,
a successful iteration continues with the signal cleared, and `add` on a
player with no loop task clears the signal. -/
theorem cancellation_signal_reset_witness :
    (∃ q, playerLoopIter sampleEnv { samplePlayer with stopEvent := true } = .cont q ∧
      q.stopEvent = false) ∧
    (GuildPlayer.add { samplePlayer with stopEvent := true } sampleTrackX).stopEvent = false := by
  have h := cancellation_signal_reset { samplePlayer with stopEvent := true } sampleEnv
    sampleTrackX [sampleTrackY, sampleTrackZ]
  exact ⟨h.1 rfl (by decide) (by decide) rfl, h.2 (Or.inl rfl)⟩

/-- Claim C1: for every interleaving of enqueue calls and loop-task
completions from a fresh session, at most one playback-loop task is alive
at any time, and an enqueue while the handle's task is still running
starts no new loop (it is idempotent with respect to an already-running
loop). -/
theorem at_most_one_loop (es : List SysEvent) (s : TaskSys) :
    (sysRun es).tasks.count true ≤ 1 ∧
    (s.handleDone = false → sysStep s .enqueue = s) := by
  constructor
  · exact aliveInv_count _ (aliveInv_run es)
  · intro h
    simp [sysStep, h]

/-- Witness for claim C1: a concrete interleaving (enqueue, enqueue,
task 0 finishes, enqueue) leaves at most one alive loop task, and an
enqueue with a running handle changes nothing. -/
theorem at_most_one_loop_witness :
    (sysRun [SysEvent.enqueue, SysEvent.enqueue, SysEvent.taskFinish 0, SysEvent.enqueue]).tasks.count true ≤ 1 ∧
    sysStep { tasks := [true], handle := some 0 } SysEvent.enqueue = { tasks := [true], handle := some 0 } := by
  have h := at_most_one_loop [SysEvent.enqueue, SysEvent.enqueue, SysEvent.taskFinish 0, SysEvent.enqueue] { tasks := [true], handle := some 0 }
  exact ⟨h.1, h.2 (by decide)⟩

/-- Claim C9: whenever the playback loop exits it runs the cleanup, which
disconnects the transport exactly when the channel has zero other
occupants and the transport is still connected, and unconditionally clears
the current track, the start timestamp, and the attached-stream reference
on every exit path. -/
theorem loop_exit_cleanup (p : GuildPlayer) (fuel : Nat) (envs : Nat → LoopEnv)
    (q : GuildPlayer) :
    ((playerLoopCleanup p).current = none ∧
     (playerLoopCleanup p).startedAt = none ∧
     (playerLoopCleanup p).pcm = none ∧
     voiceConnected (playerLoopCleanup p) =
       (voiceConnected p && !(channelEmptyExcludingSelf p))) ∧
    (runPlayerLoop fuel envs p = some q → ∃ e, q = playerLoopCleanup e) := by
  refine ⟨⟨?_, ?_, ?_, cleanup_connected p⟩, runPlayerLoop_exit_form fuel envs p q⟩
  · simp only [playerLoopCleanup]
  · simp only [playerLoopCleanup]
  · simp only [playerLoopCleanup]

/-- Witness for claim C9: a full loop run on the empty-queue sample player
terminates in one step and its result is the cleanup of some exit state,
with the cleared fields observable. -/
theorem loop_exit_cleanup_witness :
    (playerLoopCleanup emptyQueuePlayer).current = none ∧
    (∃ e, playerLoopCleanup emptyQueuePlayer = playerLoopCleanup e) := by
  have h := loop_exit_cleanup emptyQueuePlayer 1 (fun _ => sampleEnv)
    (playerLoopCleanup emptyQueuePlayer)
  exact ⟨h.1.1, h.2 (by decide)⟩

/-- Claim C10: `Shuffle()` on an empty queue is a no-op, and in general it
produces a permutation of the queued tracks (same multiset, same length)
while leaving the current track and every other session field
unmodified. -/
theorem shuffle_permutes (p : GuildPlayer) (rand : Nat → Nat) :
    (p.queue = [] → p.shuffle rand = p) ∧
    ((p.shuffle rand).queue).Perm p.queue ∧
    (p.shuffle rand).queue.length = p.queue.length ∧
    (p.shuffle rand).current = p.current ∧
    (p.shuffle rand).voice = p.voice ∧
    (p.shuffle rand).playTask = p.playTask ∧
    (p.shuffle rand).stopEvent = p.stopEvent ∧
    (p.shuffle rand).startedAt = p.startedAt ∧
    (p.shuffle rand).volume = p.volume ∧
    (p.shuffle rand).pcm = p.pcm ∧
    (p.shuffle rand).lastNonzeroVolume = p.lastNonzeroVolume ∧
    (p.shuffle rand).announce = p.announce := by
  have hperm : ((p.shuffle rand).queue).Perm p.queue := by
    simp only [GuildPlayer.shuffle]
    split
    · exact List.Perm.refl _
    · simp only [shuffleList]
      exact fyPass_perm rand (p.queue.length - 1) p.queue
  refine ⟨fun h => by simp [GuildPlayer.shuffle, h], hperm, hperm.length_eq,
    ?_, ?_, ?_, ?_, ?_, ?_, ?_, ?_, ?_⟩ <;>
    (simp only [GuildPlayer.shuffle]; split <;> rfl)

/-- Witness for claim C10: shuffling the empty-queue sample player is a
no-op, and shuffling the three-track sample player yields a permutation of
its queue. -/
theorem shuffle_permutes_witness :
    emptyQueuePlayer.shuffle (fun _ => 0) = emptyQueuePlayer ∧
    ((samplePlayer.shuffle (fun _ => 0)).queue).Perm samplePlayer.queue := by
  have h1 := shuffle_permutes emptyQueuePlayer (fun _ => 0)
  have h2 := shuffle_permutes samplePlayer (fun _ => 0)
  exact ⟨h1.1 rfl, h2.2.1⟩

end PyDiscord
